import Mathlib

/-
  Shallow embedding of the fireworks animation core of the
  hinolugi-support.js repository (src/js/vector.js and the fireworks
  module in src/unnamed/part_000, with the random/distance helpers of
  src/unnamed/part_002).  JavaScript numbers are modelled as real
  numbers; JS `Math.floor` is `Int.floor`; arrays are lists.
-/

namespace Fireworks

/-! ## Vector (src/js/vector.js) -/

/-- 2D vector value type, `class Vector { constructor(x, y) ... }`. -/
structure Vector where
  x : ℝ
  y : ℝ

/-- `vectorFromPolar(angle, magnitude)`. -/
noncomputable def vectorFromPolar (angle : ℝ) (magnitude : ℝ) : Vector :=
  Vector.mk (magnitude * Real.cos angle) (magnitude * Real.sin angle)

/-- `vectorFromCartesian(x, y)`. -/
def vectorFromCartesian (x y : ℝ) : Vector := Vector.mk x y

/-- `dot(other)` after the `checkVector` guard has passed. -/
def Vector.dot (v w : Vector) : ℝ := v.x * w.x + v.y * w.y

/-- `plus(other)`. -/
def Vector.plus (v w : Vector) : Vector := Vector.mk (v.x + w.x) (v.y + w.y)

/-- `minus(other)`. -/
def Vector.minus (v w : Vector) : Vector := Vector.mk (v.x - w.x) (v.y - w.y)

/-- `multiply(factor)`. -/
def Vector.multiply (v : Vector) (factor : ℝ) : Vector :=
  Vector.mk (v.x * factor) (v.y * factor)

/-- `divide(divisor)`. -/
noncomputable def Vector.divide (v : Vector) (divisor : ℝ) : Vector :=
  Vector.mk (v.x / divisor) (v.y / divisor)

/-- `get magnitude()`: `Math.sqrt(x*x + y*y)`. -/
noncomputable def Vector.magnitude (v : Vector) : ℝ :=
  Real.sqrt (v.x * v.x + v.y * v.y)

/-- `normalized()`: divide by the magnitude unless it is zero. -/
noncomputable def Vector.normalized (v : Vector) : Vector :=
  if v.magnitude ≠ 0 then v.divide v.magnitude else v

/-!  Dynamic-typing model for the `checkVector` guard (C6).  A JS value
  passed to a binary vector operation is either a `Vector` instance or
  some other value; reading `.x` from a non-Vector yields `undefined`,
  and arithmetic on `undefined` yields `NaN`.  JS numbers that may be
  `NaN` are modelled as `Option ℝ` with `none` for `NaN`. -/

/-- A JavaScript argument value: a Vector instance or anything else. -/
inductive JSArg where
  | vec (v : Vector)
  | nonVec

/-- Property access `arg.x`: `undefined`/`NaN` is `none`. -/
def jsGetX : JSArg → Option ℝ
  | .vec v => some v.x
  | .nonVec => none

/-- Property access `arg.y`. -/
def jsGetY : JSArg → Option ℝ
  | .vec v => some v.y
  | .nonVec => none

/-- JS addition where an operand may be `NaN`/`undefined`. -/
def jsAdd : Option ℝ → Option ℝ → Option ℝ
  | some a, some b => some (a + b)
  | _, _ => none

/-- JS subtraction where an operand may be `NaN`/`undefined`. -/
def jsSub : Option ℝ → Option ℝ → Option ℝ
  | some a, some b => some (a - b)
  | _, _ => none

/-- JS multiplication where an operand may be `NaN`/`undefined`. -/
def jsMul : Option ℝ → Option ℝ → Option ℝ
  | some a, some b => some (a * b)
  | _, _ => none

/-- `checkVector(vector)`: throws unless the argument is a Vector. -/
def Vector.checkVector : JSArg → Except String Unit
  | .vec _ => Except.ok ()
  | .nonVec => Except.error "Vector expected but received other type"

/-- `dot(other)` as called on a dynamic argument: `checkVector` first,
  then `this.x * other.x + this.y * other.y`. -/
def Vector.dotJS (v : Vector) (o : JSArg) : Except String (Option ℝ) :=
  match Vector.checkVector o with
  | .error e => .error e
  | .ok _ => .ok (jsAdd (jsMul (some v.x) (jsGetX o)) (jsMul (some v.y) (jsGetY o)))

/-- `plus(other)` as called on a dynamic argument: no type check in the
  source, componentwise addition on whatever `.x`/`.y` yield. -/
def Vector.plusJS (v : Vector) (o : JSArg) : Except String (Option ℝ × Option ℝ) :=
  .ok (jsAdd (some v.x) (jsGetX o), jsAdd (some v.y) (jsGetY o))

/-- `minus(other)` as called on a dynamic argument: no type check in the
  source, componentwise subtraction. -/
def Vector.minusJS (v : Vector) (o : JSArg) : Except String (Option ℝ × Option ℝ) :=
  .ok (jsSub (some v.x) (jsGetX o), jsSub (some v.y) (jsGetY o))

/-! ## Utility helpers (src/unnamed/part_002) -/

/-- `utils.random(min, max)`: `Math.floor(Math.random() * (max + 1 - min) + min)`,
  with `u` standing for the `Math.random()` draw (in `[0,1)` in JS).
  Per its own documentation the result ranges over `[min, max]`, both
  ends inclusive. -/
noncomputable def jsRandomInt (u min max : ℝ) : ℤ :=
  Int.floor (u * (max + 1 - min) + min)

/-- `utils.randomElement(array)`: `null` for an empty array, otherwise
  `array[random(0, array.length - 1)]` (`none` models `undefined` for an
  out-of-range index, which cannot happen for `u` in `[0,1)`). -/
noncomputable def randomElement {α : Type} (l : List α) (u : ℝ) : Option α :=
  if l.length = 0 then none
  else l.get? (jsRandomInt u 0 ((l.length : ℝ) - 1)).toNat

/-- `utils.distance(point1, point2)`: Euclidean distance. -/
noncomputable def jsDistance (p1 p2 : Vector) : ℝ :=
  Real.sqrt ((p2.x - p1.x) ^ 2 + (p2.y - p1.y) ^ 2)

/-! ## Constants (src/unnamed/part_000) -/

/-- `const FRAMES_PER_SECOND = 60`. -/
def FRAMES_PER_SECOND : ℝ := 60

/-- `const GRAVITY = new Vector(0, 0.07)`. -/
noncomputable def GRAVITY : Vector := Vector.mk 0 0.07

/-- `const MAX_PARTICLE_TRAIL = 10`. -/
def MAX_PARTICLE_TRAIL : Nat := 10

/-! ## Particle (src/unnamed/part_000) -/

/-- A single point mass: position, velocity, acceleration accumulator,
  lifespan/decay, hue and the bounded trail of recent positions. -/
structure Particle where
  acc : Vector
  vel : Vector
  pos : Vector
  lifespan : ℝ
  decay : ℝ
  hue : ℝ
  trails : List (ℝ × ℝ)

/-- `new Particle(loc, vel, hue, decay)` (decay defaults to 1 at call
  sites that omit it). -/
def Particle.init (loc vel : Vector) (hue decay : ℝ) : Particle :=
  { acc := Vector.mk 0 0
    vel := vel
    pos := loc
    lifespan := 100
    decay := decay
    hue := hue
    trails := [(loc.x, loc.y)] }

/-- `get dead()`: `lifespan <= 0`. -/
def Particle.dead (p : Particle) : Prop := p.lifespan ≤ 0

/-- `applyForce(f)`: `acc = acc.plus(f)`. -/
def Particle.applyForce (p : Particle) (f : Vector) : Particle :=
  { p with acc := p.acc.plus f }

/-- The `while (trails.length > MAX_PARTICLE_TRAIL) trails.pop()` loop:
  drop elements from the tail until the length bound holds. -/
def truncTrail (l : List (ℝ × ℝ)) : List (ℝ × ℝ) :=
  if MAX_PARTICLE_TRAIL < l.length then truncTrail l.dropLast else l
termination_by l.length
decreasing_by
  simp only [List.length_dropLast]
  omega

/-- `Particle.step()`: record the pre-update position at the head of the
  trail and truncate, then `vel += acc`, `pos += vel` (the updated
  velocity), `lifespan -= decay`, and clear the acceleration via
  `acc.multiply(0)`. -/
def Particle.step (p : Particle) : Particle :=
  { p with
    trails := truncTrail ((p.pos.x, p.pos.y) :: p.trails)
    vel := p.vel.plus p.acc
    pos := p.pos.plus (p.vel.plus p.acc)
    lifespan := p.lifespan - p.decay
    acc := p.acc.multiply 0 }

/-- An operation a Particle owner may perform between renders: apply a
  force (e.g. gravity, any number of times) or advance one step. -/
inductive POp where
  | applyForce (f : Vector)
  | step

/-- Run one particle operation. -/
def Particle.applyOp (p : Particle) : POp → Particle
  | .applyForce f => p.applyForce f
  | .step => p.step

/-- Run a sequence of particle operations. -/
def Particle.run (p : Particle) : List POp → Particle
  | [] => p
  | op :: ops => (p.applyOp op).run ops

/-! ## SVG path geometry and the explosion environment

  `getTotalLength`/`getPointAtLength` are DOM operations; a path element
  is modelled by the total length and the point-sampling function the
  browser provides for it. -/

/-- A resolved SVG path element as the DOM exposes it. -/
structure SvgPath where
  totalLength : ℝ
  pointAt : ℝ → ℝ × ℝ

/-- External inputs of one explosion: the `Math.random()` draws consumed
  by the shape dispatch and generators, `document.getElementById`, and
  the geometry the browser derives from the five built-in path
  constants (umbrella, star, skull, rabbit, eagle). -/
structure Env where
  shapeU : ℝ
  fragU : ℕ → ℝ
  armU : ℝ
  roseU : ℝ
  byId : String → Option SvgPath
  umbrellaGeom : SvgPath
  starGeom : SvgPath
  skullGeom : SvgPath
  rabbitGeom : SvgPath
  eagleGeom : SvgPath

/-! ## Explosion shape generators (methods of `Firework`) -/

/-- `explodeAsNormal(origin)`: 180 equally spaced angles, magnitude
  `0.1 + 1.5 * Math.random()`, shifted by the stored (normalized)
  initial ascend velocity. -/
noncomputable def explodeAsNormal (origin ivNorm : Vector) (hue : ℝ) (rand : ℕ → ℝ) :
    List Particle :=
  (List.range 180).map (fun (i : ℕ) =>
    Particle.init origin
      ((vectorFromPolar ((i : ℝ) * (Real.pi * 2 / 180)) (0.1 + 1.5 * rand i)).plus ivNorm)
      hue 1)

/-- `explodeAsHeart(origin)`: 180 samples of the parametric heart curve
  scaled by 0.05. -/
noncomputable def explodeAsHeart (origin : Vector) (hue : ℝ) : List Particle :=
  (List.range 180).map (fun (i : ℕ) =>
    Particle.init origin
      ((vectorFromCartesian (16 * Real.sin ((i : ℝ) * (Real.pi * 2 / 180)) ^ 3)
          (0 - (13 * Real.cos ((i : ℝ) * (Real.pi * 2 / 180))
            - 5 * Real.cos (2 * ((i : ℝ) * (Real.pi * 2 / 180)))
            - 2 * Real.cos (3 * ((i : ℝ) * (Real.pi * 2 / 180)))
            - Real.cos (4 * ((i : ℝ) * (Real.pi * 2 / 180)))))).multiply 0.05)
      hue 1)

/-- `explodeAsCircle(origin)`: 180 equally spaced angles at magnitude 0.8. -/
noncomputable def explodeAsCircle (origin : Vector) (hue : ℝ) : List Particle :=
  (List.range 180).map (fun (i : ℕ) =>
    Particle.init origin (vectorFromPolar ((i : ℝ) * (Real.pi * 2 / 180)) 0.8) hue 1)

/-- `explodeAsDonut(origin)`: like circle but with a second, slower
  (factor 0.8) particle per angle. -/
noncomputable def explodeAsDonut (origin : Vector) (hue : ℝ) : List Particle :=
  ((List.range 180).map (fun (i : ℕ) =>
    [Particle.init origin (vectorFromPolar ((i : ℝ) * (Real.pi * 2 / 180)) 0.8) hue 1,
     Particle.init origin
       ((vectorFromPolar ((i : ℝ) * (Real.pi * 2 / 180)) 0.8).multiply 0.8)
       hue 1])).flatten

/-- `explodeAsTwinkle(origin)`: `arms = random(4, 7)`; `3 * arms` points
  cycling through the radii `[4, 3, 1]` at angle increment `PI / arms`. -/
noncomputable def explodeAsTwinkle (origin : Vector) (hue : ℝ) (u : ℝ) : List Particle :=
  (List.range (3 * (jsRandomInt u 4 7).toNat)).map (fun (i : ℕ) =>
    Particle.init origin
      (vectorFromPolar ((i : ℝ) * (Real.pi / ((jsRandomInt u 4 7).toNat : ℝ)))
        (([4, 3, 1] : List ℝ).getD (i % 3) 0))
      hue 1)

/-- The 180 points of `explodeAsSvgPath` sampled at even arc-length
  along the path (total length floored as in the source). -/
noncomputable def svgSampleVectors (pa : SvgPath) : List Vector :=
  (List.range 180).map (fun (i : ℕ) =>
    Vector.mk (pa.pointAt (((Int.floor pa.totalLength : ℤ) : ℝ) * (i : ℝ) / 180)).1
      (pa.pointAt (((Int.floor pa.totalLength : ℤ) : ℝ) * (i : ℝ) / 180)).2)

/-- The running maximum `if (v.magnitude > max) max = v.magnitude`,
  starting from 0. -/
noncomputable def svgMaxMag (pa : SvgPath) : ℝ :=
  (svgSampleVectors pa).foldl (fun m v => if m < v.magnitude then v.magnitude else m) 0

/-- `explodeAsSvgPath(origin, svgPathEl)`: every sampled vector is
  divided by the single largest sampled magnitude (unguarded division)
  and used directly as a fragment velocity. -/
noncomputable def explodeAsSvgPath (origin : Vector) (hue : ℝ) (pa : SvgPath) :
    List Particle :=
  (svgSampleVectors pa).map (fun v =>
    Particle.init origin (v.divide (svgMaxMag pa)) hue 1)

/-! ## Rose generator -/

/-- The curated `K_VALS` table of `(n, d)` pairs. -/
def roseKVals : List (ℕ × ℕ) :=
  [(2, 1), (3, 1), (4, 1), (5, 1), (6, 1), (7, 1),
   (3, 2), (4, 2), (5, 2), (6, 2), (7, 2),
   (2, 3), (4, 3), (5, 3), (6, 3), (7, 3),
   (3, 4), (5, 4), (6, 4), (7, 4),
   (2, 5), (3, 5), (4, 5), (6, 5), (7, 5),
   (4, 6), (5, 6), (7, 6),
   (2, 7), (3, 7), (4, 7), (5, 7), (6, 7),
   (3, 8), (5, 8), (6, 8), (7, 8),
   (2, 9), (4, 9), (5, 9), (6, 9), (7, 9)]

/-- `_reduceDenominator(n, d)`: `d / gcd(n, d)` with JS number division
  (exact, since the gcd divides `d`). -/
noncomputable def reduceDenominator (n d : ℕ) : ℝ :=
  (d : ℝ) / (Nat.gcd n d : ℝ)

/-- `maxAngle = Math.PI * 2 * _reduceDenominator(n, d)`. -/
noncomputable def roseMaxAngle (n d : ℕ) : ℝ :=
  Real.pi * 2 * reduceDenominator n d

/-- The number of doublings the `while (maxAngle / step > 180) step *= 2`
  loop performs: the least `j` whose step satisfies the loop exit
  condition (the loop terminates because the ratio, with the `PI`
  factors cancelled, is `360 * (d / gcd n d) / 2 ^ j`). -/
noncomputable def roseDoublings (n d : ℕ) : ℕ :=
  letI : DecidablePred (fun j : ℕ => roseMaxAngle n d / (Real.pi / 180 * 2 ^ j) ≤ 180) :=
    fun _ => Classical.dec _
  Nat.find (show ∃ j : ℕ, roseMaxAngle n d / (Real.pi / 180 * 2 ^ j) ≤ 180 by
    refine ⟨d + 2, ?_⟩
    have hpi : Real.pi ≠ 0 := Real.pi_ne_zero
    have h2 : ((2 : ℝ) ^ (d + 2)) ≠ 0 := by positivity
    have hratio : roseMaxAngle n d / (Real.pi / 180 * 2 ^ (d + 2))
        = 360 * reduceDenominator n d / 2 ^ (d + 2) := by
      unfold roseMaxAngle
      field_simp
      ring
    rw [hratio]
    have hq : reduceDenominator n d ≤ (d : ℝ) := by
      unfold reduceDenominator
      rcases Nat.eq_zero_or_pos (Nat.gcd n d) with h | h
      · simp [h]
      · exact div_le_self (Nat.cast_nonneg d) (by exact_mod_cast h)
    have hq0 : (0 : ℝ) ≤ reduceDenominator n d := by
      unfold reduceDenominator
      positivity
    have hd2 : (d : ℝ) ≤ 2 ^ d := by
      have h1 : (d : ℝ) < ((2 ^ d : ℕ) : ℝ) := by exact_mod_cast Nat.lt_two_pow d
      push_cast at h1
      linarith
    have hpow : (0 : ℝ) < 2 ^ (d + 2) := by positivity
    rw [div_le_iff₀ hpow]
    have hsplit : (2 : ℝ) ^ (d + 2) = 4 * 2 ^ d := by ring
    rw [hsplit]
    nlinarith)

/-- The step after the doubling loop: `PI / 180` doubled
  `roseDoublings` times. -/
noncomputable def roseStep (n d : ℕ) : ℝ :=
  Real.pi / 180 * 2 ^ roseDoublings n d

/-- `for (a = 0; a < maxAngle; a += step)`: the list of loop angles.
  The `0 < s` guard makes the recursion well-founded; the source only
  runs the loop with the positive step `roseStep`. -/
noncomputable def sweep (M s a : ℝ) : List ℝ :=
  if h : 0 < s ∧ a < M then a :: sweep M s (a + s) else []
termination_by (Int.ceil ((M - a) / s)).toNat
decreasing_by
  have hs := h.1
  have haM := h.2
  have h1 : (M - (a + s)) / s = (M - a) / s - 1 := by
    field_simp
    ring
  have h2 : (0 : ℝ) < (M - a) / s := div_pos (by linarith [haM]) hs
  have h3 : (1 : ℤ) ≤ Int.ceil ((M - a) / s) := by
    exact_mod_cast Int.ceil_pos.mpr h2
  rw [h1]
  have h4 : Int.ceil ((M - a) / s - 1) = Int.ceil ((M - a) / s) - 1 := by
    exact_mod_cast Int.ceil_sub_int ((M - a) / s) 1
  rw [h4]
  omega

/-- `explodeAsRose(origin)` for a chosen `(n, d)` pair: sweep the angle
  and emit one fragment per sample with polar magnitude
  `0.8 * cos(k * a)`, `k = n / d`. -/
noncomputable def explodeAsRose (n d : ℕ) (origin : Vector) (hue : ℝ) : List Particle :=
  (sweep (roseMaxAngle n d) (roseStep n d) 0).map (fun a =>
    Particle.init origin
      (vectorFromPolar a (0.8 * Real.cos (((n : ℝ) / (d : ℝ)) * a))) hue 1)

/-! ## Firework state machine -/

/-- A firework: the single ascending particle, then the fragment swarm. -/
structure Firework where
  particles : List Particle
  exploded : Bool
  initialVelocity : Vector
  origin : Vector
  target : Option Vector
  shape : String
  hue : ℝ
  lifespan : ℝ
  svgPathId : Option String

/-- `new Firework(origin, initialVelocity, shape, hue, target, svgPathId)`:
  one ascending particle with decay 0; the initial velocity is stored
  normalized; lifespan starts at 200. -/
noncomputable def Firework.init (origin initialVelocity : Vector) (shape : String)
    (hue : ℝ) (target : Option Vector) (svgPathId : Option String) : Firework :=
  { particles := [Particle.init origin initialVelocity hue 0]
    exploded := false
    initialVelocity := initialVelocity.normalized
    origin := origin
    target := target
    shape := shape
    hue := hue
    lifespan := 200
    svgPathId := svgPathId }

/-- `get dead()`: lifespan exhausted and no fragments left. -/
def Firework.dead (f : Firework) : Prop :=
  f.lifespan ≤ 0 ∧ f.particles = []

/-- `Firework.applyForce(dir)`: forward the force to every particle. -/
def Firework.applyForce (f : Firework) (dir : Vector) : Firework :=
  { f with particles := f.particles.map (fun p => p.applyForce dir) }

/-- The list the `random` shape is drawn from at explosion time. -/
def randomShapeChoices : List String :=
  ["hearts", "normal", "donuts", "roses", "circles", "stars", "svg-path"]

/-- `let shape = this._shape !== 'random' ? this._shape : utils.randomElement([...])`. -/
noncomputable def resolveShape (shape : String) (u : ℝ) : Option String :=
  if shape ≠ "random" then some shape else randomElement randomShapeChoices u

/-- The `switch` body of `Firework.explode` once the shape tag has been
  resolved (a `null` tag falls into the default branch like any
  unmatched tag).  The five built-in path shapes sample the geometry the
  browser derives from their constant path strings; `svg-path` resolves
  `svgPathId` via `document.getElementById` and falls through to the
  `normal` branch when the element is missing. -/
noncomputable def shapeDispatch (env : Env) (sh : Option String)
    (svgPathId : Option String) (ivNorm : Vector) (hue : ℝ) (origin : Vector) :
    List Particle :=
  if sh = some "hearts" ∨ sh = some "heart" then explodeAsHeart origin hue
  else if sh = some "circles" ∨ sh = some "circle" then explodeAsCircle origin hue
  else if sh = some "donuts" ∨ sh = some "donut" then explodeAsDonut origin hue
  else if sh = some "roses" ∨ sh = some "rose" then
    match randomElement roseKVals env.roseU with
    | some kv => explodeAsRose kv.1 kv.2 origin hue
    | none => []
  else if sh = some "twinkles" ∨ sh = some "twinkle" then
    explodeAsTwinkle origin hue env.armU
  else if sh = some "umbrellas" ∨ sh = some "umbrella" then
    explodeAsSvgPath origin hue env.umbrellaGeom
  else if sh = some "star" ∨ sh = some "stars" then
    explodeAsSvgPath origin hue env.starGeom
  else if sh = some "skulls" ∨ sh = some "skull" then
    explodeAsSvgPath origin hue env.skullGeom
  else if sh = some "rabbits" ∨ sh = some "rabbit" then
    explodeAsSvgPath origin hue env.rabbitGeom
  else if sh = some "eagles" ∨ sh = some "eagle" then
    explodeAsSvgPath origin hue env.eagleGeom
  else if sh = some "svg-path" then
    match svgPathId.bind env.byId with
    | some pa => explodeAsSvgPath origin hue pa
    | none => explodeAsNormal origin ivNorm hue env.fragU
  else explodeAsNormal origin ivNorm hue env.fragU

/-- `Firework.explode(origin)`: resolve the shape (drawing now if the
  configured shape is `random`) and run the matching generator. -/
noncomputable def Firework.explodeFragments (env : Env) (shape : String)
    (svgPathId : Option String) (ivNorm : Vector) (hue : ℝ) (origin : Vector) :
    List Particle :=
  shapeDispatch env (resolveShape shape env.shapeU) svgPathId ivNorm hue origin

/-- The explosion trigger checked after stepping the ascending particle:
  vertical velocity no longer negative, or the supplied target within 10
  units. -/
def explodeCond (target : Option Vector) (p0stepped : Particle) : Prop :=
  0 ≤ p0stepped.vel.y ∨
    match target with
    | some t => jsDistance t p0stepped.pos < 10
    | none => False

open Classical in
/-- `Firework.step()`.  Ascending: step the single particle, then
  explode when the trigger holds (the ascending particle is spliced out
  and the generator pushes the fragments).  Exploded: step every
  fragment, prune the dead ones, and count the lifespan down.  The
  empty-particles case while ascending cannot arise from a constructed
  firework (the JS code would fail there); it is returned unchanged. -/
noncomputable def Firework.step (f : Firework) (env : Env) : Firework :=
  if f.exploded = false then
    match f.particles with
    | p0 :: rest =>
      if explodeCond f.target p0.step then
        { f with exploded := true
                 particles := rest ++ Firework.explodeFragments env f.shape f.svgPathId
                   f.initialVelocity f.hue p0.step.pos }
      else { f with particles := p0.step :: rest }
    | [] => f
  else
    { f with particles := (f.particles.map Particle.step).filter
               (fun p => decide (¬ p.dead))
             lifespan := f.lifespan - 1 }

/-- An operation the owning box performs on a firework between renders. -/
inductive FwOp where
  | applyForce (dir : Vector)
  | step (env : Env)

/-- Run one firework operation. -/
noncomputable def Firework.applyOp (f : Firework) : FwOp → Firework
  | .applyForce d => f.applyForce d
  | .step env => f.step env

/-- Run a sequence of firework operations. -/
noncomputable def Firework.run (f : Firework) : List FwOp → Firework
  | [] => f
  | op :: ops => (f.applyOp op).run ops

/-! ## FireworkBox.startNewFirework (src/unnamed/part_000) -/

/-- `startNewFirework(target)` of a box with extents `width`/`height`:
  random hue over `0..360`; origin at the horizontal midpoint of the
  bottom edge; target either supplied or drawn from the configured
  bands; launch velocity from projectile kinematics for a 2-second
  ascent.  `hueU`, `txU`, `tyU` are the `Math.random()` draws consumed
  by the `utils.random` calls.  Note the constructed Firework receives
  `null` as its target. -/
noncomputable def startNewFirework (width height : ℝ) (hueU txU tyU : ℝ)
    (target : Option Vector) (shape : String) (svgPathId : Option String) : Firework :=
  let hue : ℝ := ((jsRandomInt hueU 0 360 : ℤ) : ℝ)
  let xOrig : ℝ := ((Int.floor (width / 2) : ℤ) : ℝ)
  let origin := Vector.mk xOrig height
  let xTarget : ℝ := match target with
    | some t => t.x
    | none => ((jsRandomInt txU (width * 0.1) (width * 0.9) : ℤ) : ℝ)
  let yTarget : ℝ := match target with
    | some t => t.y
    | none => ((jsRandomInt tyU (height * 0.2) (height * 0.4) : ℤ) : ℝ)
  let t : ℝ := 2 * FRAMES_PER_SECOND
  let xVel := (xTarget - xOrig) / t
  let yVel := -Real.sqrt (2 * GRAVITY.y * (height - yTarget))
  Firework.init origin (Vector.mk xVel yVel) shape hue none svgPathId

/-- A concrete environment used to instantiate closed statements. -/
noncomputable def trivEnv : Env :=
  { shapeU := 0
    fragU := fun _ => 0
    armU := 0
    roseU := 0
    byId := fun _ => none
    umbrellaGeom := SvgPath.mk 0 (fun _ => (0, 0))
    starGeom := SvgPath.mk 0 (fun _ => (0, 0))
    skullGeom := SvgPath.mk 0 (fun _ => (0, 0))
    rabbitGeom := SvgPath.mk 0 (fun _ => (0, 0))
    eagleGeom := SvgPath.mk 0 (fun _ => (0, 0)) }

/-- Freshness of one fragment relative to an explosion origin: placed
  there, decay 1, full lifespan. -/
def FreshAt (o : Vector) (p : Particle) : Prop :=
  p.pos = o ∧ p.decay = 1 ∧ p.lifespan = 100

/-- The ascending-phase invariant: while unexploded the particle list is
  the single ascending particle, whose decay is 0. -/
def FwInv (f : Firework) : Prop :=
  f.exploded = false → ∃ p0, f.particles = [p0] ∧ p0.decay = 0

/-! ## Vector lemmas -/

theorem sq_sum_nonneg (a b : ℝ) : 0 ≤ a * a + b * b :=
  add_nonneg (mul_self_nonneg a) (mul_self_nonneg b)

theorem magnitude_nonneg (v : Vector) : 0 ≤ v.magnitude :=
  Real.sqrt_nonneg _

theorem magnitude_mul_self (v : Vector) :
    v.magnitude * v.magnitude = v.x * v.x + v.y * v.y :=
  Real.mul_self_sqrt (sq_sum_nonneg v.x v.y)

theorem magnitude_divide (v : Vector) {m : ℝ} (hm : 0 < m) :
    (v.divide m).magnitude = v.magnitude / m := by
  unfold Vector.divide Vector.magnitude
  have hmne : m ≠ 0 := ne_of_gt hm
  have h1 : v.x / m * (v.x / m) + v.y / m * (v.y / m)
      = (v.x * v.x + v.y * v.y) / (m * m) := by
    field_simp
  rw [h1, Real.sqrt_div (sq_sum_nonneg v.x v.y), Real.sqrt_mul_self hm.le]

theorem magnitude_pos_of_ne_zero {v : Vector} (h : v.magnitude ≠ 0) :
    0 < v.magnitude :=
  lt_of_le_of_ne (magnitude_nonneg v) (Ne.symm h)

/-! ## Trail-truncation lemmas -/

theorem truncTrail_length (l : List (ℝ × ℝ)) :
    (truncTrail l).length = Nat.min l.length MAX_PARTICLE_TRAIL := by
  induction l using truncTrail.induct with
  | case1 l h ih =>
    rw [truncTrail, if_pos h, ih, List.length_dropLast]
    simp only [MAX_PARTICLE_TRAIL, Nat.min_def] at h ⊢
    split_ifs <;> omega
  | case2 l h =>
    rw [truncTrail, if_neg h]
    simp only [MAX_PARTICLE_TRAIL, Nat.min_def] at h ⊢
    split_ifs <;> omega

theorem truncTrail_length_le (l : List (ℝ × ℝ)) :
    (truncTrail l).length ≤ MAX_PARTICLE_TRAIL := by
  rw [truncTrail_length]
  exact Nat.min_le_right _ _

theorem truncTrail_head (c : ℝ × ℝ) (l : List (ℝ × ℝ)) :
    (truncTrail (c :: l)).head? = some c := by
  generalize hn : (c :: l).length = n
  induction n using Nat.strong_induction_on generalizing c l with
  | _ n ih =>
    rw [truncTrail]
    by_cases h : MAX_PARTICLE_TRAIL < (c :: l).length
    · rw [if_pos h]
      match l, h with
      | b :: l2, h =>
        rw [List.dropLast_cons₂]
        apply ih ((c :: (b :: l2).dropLast).length) _ c (b :: l2).dropLast rfl
        subst hn
        simp only [List.length_cons, List.length_dropLast]
        simp only [MAX_PARTICLE_TRAIL, List.length_cons] at h
        omega
    · rw [if_neg h]
      rfl

/-! ## Sweep and rose lemmas -/

theorem sweep_length_le (M s : ℝ) : ∀ a : ℝ,
    (sweep M s a).length ≤ (Int.ceil ((M - a) / s)).toNat := by
  refine sweep.induct M s
    (fun a => (sweep M s a).length ≤ (Int.ceil ((M - a) / s)).toNat) ?_ ?_
  · intro a h ih
    rw [sweep, dif_pos h]
    have hs := h.1
    have haM := h.2
    have h1 : (M - (a + s)) / s = (M - a) / s - 1 := by
      field_simp
      ring
    have h2 : (0 : ℝ) < (M - a) / s := div_pos (by linarith) hs
    have h3 : (1 : ℤ) ≤ Int.ceil ((M - a) / s) := by
      exact_mod_cast Int.ceil_pos.mpr h2
    have h4 : Int.ceil ((M - (a + s)) / s) = Int.ceil ((M - a) / s) - 1 := by
      rw [h1]
      exact_mod_cast Int.ceil_sub_int ((M - a) / s) 1
    simp only [List.length_cons]
    rw [h4] at ih
    omega
  · intro a h
    rw [sweep, dif_neg h]
    simp

theorem roseRatioAfter (n d : ℕ) (j : ℕ) :
    roseMaxAngle n d / (Real.pi / 180 * 2 ^ j)
      = 360 * reduceDenominator n d / 2 ^ j := by
  unfold roseMaxAngle
  have hpi : Real.pi ≠ 0 := Real.pi_ne_zero
  have h2 : ((2 : ℝ) ^ j) ≠ 0 := by positivity
  field_simp
  ring

theorem roseStep_spec (n d : ℕ) :
    roseMaxAngle n d / roseStep n d ≤ 180 := by
  have h : ∀ (inst : DecidablePred fun j : ℕ =>
        roseMaxAngle n d / (Real.pi / 180 * 2 ^ j) ≤ 180)
      (H : ∃ j : ℕ, roseMaxAngle n d / (Real.pi / 180 * 2 ^ j) ≤ 180),
      roseMaxAngle n d / (Real.pi / 180 * 2 ^ (@Nat.find _ inst H)) ≤ 180 :=
    fun _ H => Nat.find_spec H
  unfold roseStep roseDoublings
  exact h _ _

theorem roseStep_min (n d : ℕ) :
    ∀ j < roseDoublings n d, 180 < roseMaxAngle n d / (Real.pi / 180 * 2 ^ j) := by
  have h : ∀ (inst : DecidablePred fun j : ℕ =>
        roseMaxAngle n d / (Real.pi / 180 * 2 ^ j) ≤ 180)
      (H : ∃ j : ℕ, roseMaxAngle n d / (Real.pi / 180 * 2 ^ j) ≤ 180),
      ∀ j < @Nat.find _ inst H, ¬(roseMaxAngle n d / (Real.pi / 180 * 2 ^ j) ≤ 180) :=
    fun _ H j hj => Nat.find_min H hj
  intro j hj
  unfold roseDoublings at hj
  exact lt_of_not_le (h _ _ j hj)

theorem roseStep_pos (n d : ℕ) : 0 < roseStep n d := by
  unfold roseStep
  positivity

theorem explodeAsRose_length_le (n d : ℕ) (origin : Vector) (hue : ℝ) :
    (explodeAsRose n d origin hue).length ≤ 180 := by
  unfold explodeAsRose
  rw [List.length_map]
  have h1 := sweep_length_le (roseMaxAngle n d) (roseStep n d) 0
  have h2 : roseMaxAngle n d / roseStep n d ≤ 180 := roseStep_spec n d
  have h3 : Int.ceil ((roseMaxAngle n d - 0) / roseStep n d) ≤ (180 : ℤ) := by
    rw [sub_zero]
    exact Int.ceil_le.mpr (by exact_mod_cast h2)
  calc (sweep (roseMaxAngle n d) (roseStep n d) 0).length
      ≤ (Int.ceil ((roseMaxAngle n d - 0) / roseStep n d)).toNat := h1
    _ ≤ 180 := by omega

/-! ## Fragment freshness: every generator emits particles placed at the
  explosion origin with decay 1 and full lifespan 100. -/

theorem freshAt_init (o v : Vector) (hue : ℝ) :
    FreshAt o (Particle.init o v hue 1) :=
  ⟨rfl, rfl, rfl⟩

theorem mem_map_init_fresh {α : Type} {l : List α} {g : α → Vector} {o : Vector}
    {hue : ℝ} {p : Particle}
    (h : p ∈ l.map (fun x => Particle.init o (g x) hue 1)) : FreshAt o p := by
  rcases List.mem_map.mp h with ⟨x, _, rfl⟩
  exact freshAt_init o (g x) hue

theorem explodeAsNormal_fresh {o iv : Vector} {hue : ℝ} {r : ℕ → ℝ} {p : Particle}
    (h : p ∈ explodeAsNormal o iv hue r) : FreshAt o p :=
  mem_map_init_fresh h

theorem explodeAsHeart_fresh {o : Vector} {hue : ℝ} {p : Particle}
    (h : p ∈ explodeAsHeart o hue) : FreshAt o p :=
  mem_map_init_fresh h

theorem explodeAsCircle_fresh {o : Vector} {hue : ℝ} {p : Particle}
    (h : p ∈ explodeAsCircle o hue) : FreshAt o p :=
  mem_map_init_fresh h

theorem explodeAsDonut_fresh {o : Vector} {hue : ℝ} {p : Particle}
    (h : p ∈ explodeAsDonut o hue) : FreshAt o p := by
  unfold explodeAsDonut at h
  rcases List.mem_flatten.mp h with ⟨l2, hl2, hp⟩
  rcases List.mem_map.mp hl2 with ⟨i, _, rfl⟩
  simp only [List.mem_cons, List.not_mem_nil, or_false] at hp
  rcases hp with rfl | rfl
  · exact freshAt_init o _ hue
  · exact freshAt_init o _ hue

theorem explodeAsTwinkle_fresh {o : Vector} {hue u : ℝ} {p : Particle}
    (h : p ∈ explodeAsTwinkle o hue u) : FreshAt o p :=
  mem_map_init_fresh h

theorem explodeAsSvgPath_fresh {o : Vector} {hue : ℝ} {pa : SvgPath} {p : Particle}
    (h : p ∈ explodeAsSvgPath o hue pa) : FreshAt o p :=
  mem_map_init_fresh h

theorem explodeAsRose_fresh {n d : ℕ} {o : Vector} {hue : ℝ} {p : Particle}
    (h : p ∈ explodeAsRose n d o hue) : FreshAt o p :=
  mem_map_init_fresh h

theorem roseArm_fresh {env : Env} {o : Vector} {hue : ℝ} {p : Particle}
    (h : p ∈ (match randomElement roseKVals env.roseU with
              | some kv => explodeAsRose kv.1 kv.2 o hue
              | none => ([] : List Particle))) : FreshAt o p := by
  rcases hE : randomElement roseKVals env.roseU with _ | kv
  · rw [hE] at h
    exact absurd h (List.not_mem_nil p)
  · rw [hE] at h
    exact explodeAsRose_fresh h

theorem svgArm_fresh {env : Env} {sid : Option String} {iv o : Vector} {hue : ℝ}
    {p : Particle}
    (h : p ∈ (match sid.bind env.byId with
              | some pa => explodeAsSvgPath o hue pa
              | none => explodeAsNormal o iv hue env.fragU)) : FreshAt o p := by
  rcases hE : sid.bind env.byId with _ | pa
  · rw [hE] at h
    exact explodeAsNormal_fresh h
  · rw [hE] at h
    exact explodeAsSvgPath_fresh h

set_option maxHeartbeats 1600000 in
theorem shapeDispatch_fresh {env : Env} {sh : Option String} {sid : Option String}
    {iv o : Vector} {hue : ℝ} {p : Particle}
    (h : p ∈ shapeDispatch env sh sid iv hue o) : FreshAt o p := by
  unfold shapeDispatch at h
  by_cases h1 : sh = some "hearts" ∨ sh = some "heart"
  · rw [if_pos h1] at h
    exact explodeAsHeart_fresh h
  rw [if_neg h1] at h
  by_cases h2 : sh = some "circles" ∨ sh = some "circle"
  · rw [if_pos h2] at h
    exact explodeAsCircle_fresh h
  rw [if_neg h2] at h
  by_cases h3 : sh = some "donuts" ∨ sh = some "donut"
  · rw [if_pos h3] at h
    exact explodeAsDonut_fresh h
  rw [if_neg h3] at h
  by_cases h4 : sh = some "roses" ∨ sh = some "rose"
  · rw [if_pos h4] at h
    exact roseArm_fresh h
  rw [if_neg h4] at h
  by_cases h5 : sh = some "twinkles" ∨ sh = some "twinkle"
  · rw [if_pos h5] at h
    exact explodeAsTwinkle_fresh h
  rw [if_neg h5] at h
  by_cases h6 : sh = some "umbrellas" ∨ sh = some "umbrella"
  · rw [if_pos h6] at h
    exact explodeAsSvgPath_fresh h
  rw [if_neg h6] at h
  by_cases h7 : sh = some "star" ∨ sh = some "stars"
  · rw [if_pos h7] at h
    exact explodeAsSvgPath_fresh h
  rw [if_neg h7] at h
  by_cases h8 : sh = some "skulls" ∨ sh = some "skull"
  · rw [if_pos h8] at h
    exact explodeAsSvgPath_fresh h
  rw [if_neg h8] at h
  by_cases h9 : sh = some "rabbits" ∨ sh = some "rabbit"
  · rw [if_pos h9] at h
    exact explodeAsSvgPath_fresh h
  rw [if_neg h9] at h
  by_cases h10 : sh = some "eagles" ∨ sh = some "eagle"
  · rw [if_pos h10] at h
    exact explodeAsSvgPath_fresh h
  rw [if_neg h10] at h
  by_cases h11 : sh = some "svg-path"
  · rw [if_pos h11] at h
    exact svgArm_fresh h
  rw [if_neg h11] at h
  exact explodeAsNormal_fresh h

theorem explodeFragments_fresh {env : Env} {sh : String} {sid : Option String}
    {iv o : Vector} {hue : ℝ} {p : Particle}
    (h : p ∈ Firework.explodeFragments env sh sid iv hue o) : FreshAt o p :=
  shapeDispatch_fresh h

/-! ## Firework state-machine lemmas -/

theorem fwInv_init (o iv : Vector) (sh : String) (hue : ℝ) (tg : Option Vector)
    (sid : Option String) : FwInv (Firework.init o iv sh hue tg sid) :=
  fun _ => ⟨Particle.init o iv hue 0, rfl, rfl⟩

theorem applyForce_exploded (f : Firework) (d : Vector) :
    (f.applyForce d).exploded = f.exploded := rfl

theorem step_exploded_of_exploded {f : Firework} (env : Env)
    (h : f.exploded = true) : (f.step env).exploded = true := by
  unfold Firework.step
  rw [h]
  simp

theorem step_ascend_explode {f : Firework} {p0 : Particle} (env : Env)
    (hf : f.exploded = false) (hp : f.particles = [p0])
    (hc : explodeCond f.target p0.step) :
    f.step env = { f with exploded := true
                          particles := Firework.explodeFragments env f.shape
                            f.svgPathId f.initialVelocity f.hue p0.step.pos } := by
  unfold Firework.step
  rw [hf, hp]
  simp only [eq_self_iff_true, if_true]
  rw [if_pos hc]
  simp

theorem step_ascend_continue {f : Firework} {p0 : Particle} (env : Env)
    (hf : f.exploded = false) (hp : f.particles = [p0])
    (hc : ¬ explodeCond f.target p0.step) :
    f.step env = { f with particles := [p0.step] } := by
  unfold Firework.step
  rw [hf, hp]
  simp only [eq_self_iff_true, if_true]
  rw [if_neg hc]

theorem fwInv_applyOp {f : Firework} (h : FwInv f) (op : FwOp) :
    FwInv (f.applyOp op) := by
  cases op with
  | applyForce d =>
    intro hexp
    rw [Firework.applyOp, applyForce_exploded] at hexp
    rcases h hexp with ⟨p0, hp, hd⟩
    refine ⟨p0.applyForce d, ?_, hd⟩
    show f.particles.map (fun p => p.applyForce d) = [p0.applyForce d]
    rw [hp]
    rfl
  | step env =>
    intro hexp
    rw [Firework.applyOp] at hexp ⊢
    by_cases hf : f.exploded = false
    · rcases h hf with ⟨p0, hp, hd⟩
      by_cases hc : explodeCond f.target p0.step
      · rw [step_ascend_explode env hf hp hc] at hexp
        cases hexp
      · rw [step_ascend_continue env hf hp hc]
        exact ⟨p0.step, rfl, hd⟩
    · have hf2 : f.exploded = true := by
        cases hx : f.exploded
        · exact absurd hx hf
        · rfl
      rw [step_exploded_of_exploded env hf2] at hexp
      cases hexp

theorem fwInv_run {f : Firework} (h : FwInv f) (ops : List FwOp) :
    FwInv (f.run ops) := by
  induction ops generalizing f with
  | nil => exact h
  | cons op ops ih =>
    rw [Firework.run]
    exact ih (fwInv_applyOp h op)

theorem exploded_applyOp {f : Firework} (h : f.exploded = true) (op : FwOp) :
    (f.applyOp op).exploded = true := by
  cases op with
  | applyForce d => rw [Firework.applyOp, applyForce_exploded]; exact h
  | step env => exact step_exploded_of_exploded env h

theorem exploded_run {f : Firework} (h : f.exploded = true) (ops : List FwOp) :
    (f.run ops).exploded = true := by
  induction ops generalizing f with
  | nil => exact h
  | cons op ops ih =>
    rw [Firework.run]
    exact ih (exploded_applyOp h op)

/-! ## Particle-run lemmas -/

theorem particle_run_trails_le {p : Particle}
    (hp : p.trails.length ≤ MAX_PARTICLE_TRAIL) (ops : List POp) :
    (p.run ops).trails.length ≤ MAX_PARTICLE_TRAIL := by
  induction ops generalizing p with
  | nil => exact hp
  | cons op ops ih =>
    rw [Particle.run]
    cases op with
    | applyForce f => exact ih hp
    | step => exact ih (truncTrail_length_le _)

/-! ## Claim theorems -/

/-- C2: `Particle.step` records the pre-update position at the head of
  the trail and truncates the trail to `MAX_PARTICLE_TRAIL`, then
  integrates `velocity += acceleration; position += velocity`,
  decrements `lifespan` by `decay` and clears the acceleration; and
  from a freshly constructed particle, after any interleaving of
  `applyForce` and `step` operations, `trails.length` never exceeds
  `MAX_PARTICLE_TRAIL`. -/
theorem particle_step_semantics :
    (∀ p : Particle,
      p.step.vel = p.vel.plus p.acc ∧
      p.step.pos = p.pos.plus (p.vel.plus p.acc) ∧
      p.step.lifespan = p.lifespan - p.decay ∧
      p.step.acc = Vector.mk 0 0 ∧
      p.step.trails.head? = some (p.pos.x, p.pos.y) ∧
      p.step.trails.length = Nat.min (p.trails.length + 1) MAX_PARTICLE_TRAIL)
    ∧ ∀ (loc vel : Vector) (hue decay : ℝ) (ops : List POp),
        ((Particle.init loc vel hue decay).run ops).trails.length
          ≤ MAX_PARTICLE_TRAIL := by
  constructor
  · intro p
    refine ⟨rfl, rfl, rfl, ?_, ?_, ?_⟩
    · show p.acc.multiply 0 = Vector.mk 0 0
      unfold Vector.multiply
      rw [mul_zero, mul_zero]
    · exact truncTrail_head (p.pos.x, p.pos.y) p.trails
    · show (truncTrail ((p.pos.x, p.pos.y) :: p.trails)).length = _
      rw [truncTrail_length]
      rfl
  · intro loc vel hue decay ops
    apply particle_run_trails_le _ ops
    show 1 ≤ MAX_PARTICLE_TRAIL
    norm_num [MAX_PARTICLE_TRAIL]

/-- C6 counterexample: `plus` and `minus` do not fail on a non-Vector
  argument; they return a (NaN-component) result, so the claim that
  every binary operation among dot/plus/minus fails immediately is
  false. -/
theorem vector_plus_no_typecheck_cex :
    Vector.plusJS (Vector.mk 1 2) JSArg.nonVec = Except.ok (none, none) ∧
    Vector.minusJS (Vector.mk 1 2) JSArg.nonVec = Except.ok (none, none) :=
  ⟨rfl, rfl⟩

/-- C6 amended: only `dot` calls `checkVector` and fails with the
  invalid-operand error on a non-Vector argument; `plus` and `minus`
  compute componentwise on the raw argument without any type check and
  return normally (NaN components for a non-Vector). -/
theorem vector_binop_typecheck_amended (v : Vector) :
    Vector.dotJS v JSArg.nonVec
      = Except.error "Vector expected but received other type" ∧
    (∀ w : Vector, Vector.dotJS v (JSArg.vec w)
      = Except.ok (some (v.x * w.x + v.y * w.y))) ∧
    Vector.plusJS v JSArg.nonVec = Except.ok (none, none) ∧
    Vector.minusJS v JSArg.nonVec = Except.ok (none, none) :=
  ⟨rfl, fun _ => rfl, rfl, rfl⟩

/-- C7: a vector of nonzero magnitude normalizes to magnitude exactly 1
  (in real arithmetic); the zero-magnitude vector, and only it, is
  returned unchanged by `normalized()` (and is not a unit vector),
  without any failure. -/
theorem vector_normalized_unit (v : Vector) :
    (v.magnitude ≠ 0 → v.normalized.magnitude = 1) ∧
    (v.magnitude = 0 → v.normalized = v ∧ v.normalized.magnitude ≠ 1) := by
  constructor
  · intro h
    have hm := magnitude_pos_of_ne_zero h
    unfold Vector.normalized
    rw [if_pos h, magnitude_divide v hm]
    exact div_self (ne_of_gt hm)
  · intro h
    have hn : v.normalized = v := by
      unfold Vector.normalized
      rw [if_neg (by simp [h])]
    refine ⟨hn, ?_⟩
    rw [hn, h]
    norm_num

/-- C7 witness: `(3,4)` normalizes to magnitude 1; the zero vector is
  returned unchanged and is not a unit vector. -/
theorem vector_normalized_unit_witness :
    (Vector.mk 3 4).normalized.magnitude = 1 ∧
    ((Vector.mk 0 0).normalized = Vector.mk 0 0 ∧
      (Vector.mk 0 0).normalized.magnitude ≠ 1) := by
  constructor
  · apply (vector_normalized_unit (Vector.mk 3 4)).1
    show Real.sqrt ((3 : ℝ) * 3 + 4 * 4) ≠ 0
    rw [show ((3 : ℝ) * 3 + 4 * 4) = 25 by norm_num]
    rw [Real.sqrt_ne_zero']
    norm_num
  · apply (vector_normalized_unit (Vector.mk 0 0)).2
    show Real.sqrt ((0 : ℝ) * 0 + 0 * 0) = 0
    rw [show ((0 : ℝ) * 0 + 0 * 0) = 0 by norm_num]
    exact Real.sqrt_zero

/-- C8 counterexample: the hue `startNewFirework` draws via
  `utils.random(0, 360)` can equal 360 for a valid `Math.random()` draw
  (any `u ≥ 360/361`), so the hue is not always strictly below 360. -/
theorem hue_draw_reaches_360_cex :
    (0 : ℝ) ≤ 360 / 361 ∧ (360 / 361 : ℝ) < 1 ∧
    (startNewFirework 200 400 (360 / 361) 0 0 none "normal" none).hue = 360 ∧
    ¬ (startNewFirework 200 400 (360 / 361) 0 0 none "normal" none).hue < 360 := by
  have hj : jsRandomInt (360 / 361) 0 360 = 360 := by
    unfold jsRandomInt
    rw [show (360 / 361 : ℝ) * (360 + 1 - 0) + 0 = ((360 : ℤ) : ℝ) by norm_num]
    exact Int.floor_intCast 360
  have h1 : (startNewFirework 200 400 (360 / 361) 0 0 none "normal" none).hue
      = ((jsRandomInt (360 / 361) 0 360 : ℤ) : ℝ) := rfl
  have h2 : (startNewFirework 200 400 (360 / 361) 0 0 none "normal" none).hue
      = 360 := by
    rw [h1, hj]
    norm_num
  refine ⟨by norm_num, by norm_num, h2, ?_⟩
  rw [h2]
  norm_num

/-- C8 amended: the hue `startNewFirework` assigns is an integer in the
  closed range `[0, 360]` for every valid `Math.random()` draw; the
  upper end 360 is included (the `random` helper is inclusive on both
  ends), so the half-open bound of the claim fails only at 360. -/
theorem hue_draw_range_amended (w h txU tyU : ℝ) (tg : Option Vector)
    (sh : String) (sid : Option String) (u : ℝ) (hu0 : 0 ≤ u) (hu1 : u < 1) :
    0 ≤ (startNewFirework w h u txU tyU tg sh sid).hue ∧
    (startNewFirework w h u txU tyU tg sh sid).hue ≤ 360 := by
  have h1 : (startNewFirework w h u txU tyU tg sh sid).hue
      = ((jsRandomInt u 0 360 : ℤ) : ℝ) := rfl
  have harg : u * ((360 : ℝ) + 1 - 0) + 0 = u * 361 := by ring
  have hlo : (0 : ℤ) ≤ jsRandomInt u 0 360 := by
    unfold jsRandomInt
    rw [harg]
    apply Int.le_floor.mpr
    push_cast
    positivity
  have hhi : jsRandomInt u 0 360 ≤ 360 := by
    unfold jsRandomInt
    rw [harg]
    have : jsRandomInt u 0 360 < 361 → jsRandomInt u 0 360 ≤ 360 := by omega
    have hlt : Int.floor (u * (361 : ℝ)) < (361 : ℤ) := by
      apply Int.floor_lt.mpr
      push_cast
      nlinarith
    omega
  constructor
  · rw [h1]
    exact_mod_cast hlo
  · rw [h1]
    exact_mod_cast hhi

/-- C8 amended witness: the draw `u = 1/2` is valid and yields a hue
  within `[0, 360]`. -/
theorem hue_draw_range_amended_witness :
    0 ≤ (startNewFirework 200 400 (1 / 2) 0 0 none "normal" none).hue ∧
    (startNewFirework 200 400 (1 / 2) 0 0 none "normal" none).hue ≤ 360 :=
  hue_draw_range_amended 200 400 0 0 none "normal" none (1 / 2)
    (by norm_num) (by norm_num)

/-- C3: with a supplied target, `startNewFirework` computes the launch
  velocity deterministically: `xVel = (xTarget - xOrig) / (2 * FRAMES_PER_SECOND)`
  with `xOrig = floor(width / 2)`, and
  `yVel = -sqrt(2 * gravity.y * (height - yTarget))`; in particular for
  a 200-wide, 400-high box (launch origin x = 100) and target (150, 50)
  the ascending particle's initial velocity is
  `((150 - 100) / 120, -sqrt(2 * 0.07 * (400 - 50))) = (5/12, -7)`. -/
theorem start_velocity_formula (w h hueU txU tyU : ℝ) (t : Vector) (sh : String)
    (sid : Option String) :
    (∃ p0, (startNewFirework w h hueU txU tyU (some t) sh sid).particles = [p0] ∧
      p0.vel = Vector.mk
        ((t.x - ((Int.floor (w / 2) : ℤ) : ℝ)) / (2 * FRAMES_PER_SECOND))
        (-Real.sqrt (2 * GRAVITY.y * (h - t.y))))
    ∧ (∃ p0, (startNewFirework 200 400 hueU txU tyU (some (Vector.mk 150 50))
        sh sid).particles = [p0] ∧
      p0.vel = Vector.mk ((150 - 100) / 120)
        (-Real.sqrt (2 * 0.07 * (400 - 50))) ∧
      p0.vel = Vector.mk (5 / 12) (-7)) := by
  constructor
  · exact ⟨_, rfl, rfl⟩
  · have hfloor : ((Int.floor ((200 : ℝ) / 2) : ℤ) : ℝ) = 100 := by
      rw [show ((200 : ℝ) / 2) = ((100 : ℤ) : ℝ) by norm_num, Int.floor_intCast]
      norm_num
    refine ⟨_, rfl, ?_, ?_⟩
    · show Vector.mk (((Vector.mk (150 : ℝ) 50).x - ((Int.floor ((200 : ℝ) / 2) : ℤ) : ℝ))
          / (2 * FRAMES_PER_SECOND))
          (-Real.sqrt (2 * GRAVITY.y * (400 - (Vector.mk (150 : ℝ) 50).y)))
        = Vector.mk ((150 - 100) / 120) (-Real.sqrt (2 * 0.07 * (400 - 50)))
      rw [hfloor]
      norm_num [FRAMES_PER_SECOND, GRAVITY]
    · show Vector.mk (((Vector.mk (150 : ℝ) 50).x - ((Int.floor ((200 : ℝ) / 2) : ℤ) : ℝ))
          / (2 * FRAMES_PER_SECOND))
          (-Real.sqrt (2 * GRAVITY.y * (400 - (Vector.mk (150 : ℝ) 50).y)))
        = Vector.mk (5 / 12) (-7)
      rw [hfloor]
      have hsqrt : Real.sqrt (2 * GRAVITY.y * (400 - (Vector.mk (150 : ℝ) 50).y)) = 7 := by
        rw [show (2 * GRAVITY.y * (400 - (Vector.mk (150 : ℝ) 50).y)) = (7 : ℝ) ^ 2 by
          norm_num [GRAVITY]]
        exact Real.sqrt_sq (by norm_num)
      rw [hsqrt]
      norm_num [FRAMES_PER_SECOND]

/-- Every pair in the curated rose table has nonzero numerator and
  denominator. -/
theorem roseKVals_ne_zero : ∀ x ∈ roseKVals, x.1 ≠ 0 ∧ x.2 ≠ 0 := by
  decide

/-- C4: for every `(n, d)` pair in the rose table the swept angle range
  equals `2 * PI * (d / gcd(n, d))`; the step is `PI / 180` doubled the
  minimal number of times that brings `maxAngle / step` at or below 180
  (so before the final count the bound was still exceeded); the number
  of generated fragments is at most 180; and each fragment's velocity is
  the polar vector of its sample angle with magnitude parameter
  `0.8 * cos((n / d) * a)`. -/
theorem rose_generator_spec (nd : ℕ × ℕ) (hmem : nd ∈ roseKVals)
    (origin : Vector) (hue : ℝ) :
    roseMaxAngle nd.1 nd.2 = 2 * Real.pi * ((nd.2 / Nat.gcd nd.1 nd.2 : ℕ) : ℝ)
    ∧ roseStep nd.1 nd.2 = Real.pi / 180 * 2 ^ roseDoublings nd.1 nd.2
    ∧ (∀ j < roseDoublings nd.1 nd.2,
        180 < roseMaxAngle nd.1 nd.2 / (Real.pi / 180 * 2 ^ j))
    ∧ roseMaxAngle nd.1 nd.2 / roseStep nd.1 nd.2 ≤ 180
    ∧ (explodeAsRose nd.1 nd.2 origin hue).length ≤ 180
    ∧ ∀ p ∈ explodeAsRose nd.1 nd.2 origin hue,
        ∃ a ∈ sweep (roseMaxAngle nd.1 nd.2) (roseStep nd.1 nd.2) 0,
          p = Particle.init origin
            (vectorFromPolar a (0.8 * Real.cos (((nd.1 : ℝ) / (nd.2 : ℝ)) * a)))
            hue 1 := by
  have hd : nd.2 ≠ 0 := (roseKVals_ne_zero nd hmem).2
  have hgcd : Nat.gcd nd.1 nd.2 ≠ 0 := by
    intro h
    exact hd (Nat.eq_zero_of_gcd_eq_zero_right h)
  refine ⟨?_, rfl, roseStep_min nd.1 nd.2, roseStep_spec nd.1 nd.2,
    explodeAsRose_length_le nd.1 nd.2 origin hue, ?_⟩
  · unfold roseMaxAngle reduceDenominator
    rw [Nat.cast_div (Nat.gcd_dvd_right nd.1 nd.2) (by exact_mod_cast hgcd)]
    ring
  · intro p hp
    rcases List.mem_map.mp hp with ⟨a, ha, rfl⟩
    exact ⟨a, ha, rfl⟩

/-- C4 witness: for the table pair `(3, 2)` (with `gcd 3 2 = 1`) the
  sweep is `2 * PI * 2` and the fragment count stays at or below 180. -/
theorem rose_generator_spec_witness :
    roseMaxAngle 3 2 = 2 * Real.pi * 2 ∧
    (explodeAsRose 3 2 (Vector.mk 0 0) 0).length ≤ 180 := by
  have h := rose_generator_spec (3, 2) (by decide) (Vector.mk 0 0) 0
  refine ⟨?_, h.2.2.2.2.1⟩
  have h1 := h.1
  norm_num at h1
  exact h1

/-- C5: the `random` shape is stored unresolved at ignition (the
  constructor keeps the literal `random` tag) and resolved only inside
  `explode`, drawing from a fixed list that does not contain `random`
  itself; and when the resolved shape is the external `svg-path` but the
  referenced element cannot be found, the explosion produces the
  `normal` fragments (the switch falls through), with no error
  surfaced. -/
theorem shape_resolution_policy :
    (∀ (o iv : Vector) (sh : String) (hue : ℝ) (tg : Option Vector)
        (sid : Option String), (Firework.init o iv sh hue tg sid).shape = sh)
    ∧ ("random" ∉ randomShapeChoices)
    ∧ (∀ u : ℝ, 0 ≤ u → u < 1 →
        ∃ s ∈ randomShapeChoices, resolveShape "random" u = some s)
    ∧ (∀ (env : Env) (sid : Option String) (iv : Vector) (hue : ℝ) (o : Vector),
        sid.bind env.byId = none →
        Firework.explodeFragments env "svg-path" sid iv hue o
          = explodeAsNormal o iv hue env.fragU) := by
  refine ⟨fun _ _ _ _ _ _ => rfl, by decide, ?_, ?_⟩
  · intro u hu0 hu1
    have hres : resolveShape "random" u = randomElement randomShapeChoices u := by
      unfold resolveShape
      rw [if_neg (by simp)]
    have hlen : randomShapeChoices.length = 7 := rfl
    have hfl : jsRandomInt u 0 ((randomShapeChoices.length : ℝ) - 1)
        = Int.floor (u * 7) := by
      unfold jsRandomInt
      rw [hlen]
      norm_num
    have hlo : (0 : ℤ) ≤ Int.floor (u * (7 : ℝ)) := by
      apply Int.le_floor.mpr
      push_cast
      positivity
    have hhi : Int.floor (u * (7 : ℝ)) < 7 := by
      apply Int.floor_lt.mpr
      push_cast
      nlinarith
    have hidx : (Int.floor (u * (7 : ℝ))).toNat < randomShapeChoices.length := by
      rw [hlen]
      omega
    refine ⟨randomShapeChoices.get ⟨(Int.floor (u * (7 : ℝ))).toNat, hidx⟩,
      List.get_mem _ _ _, ?_⟩
    rw [hres]
    unfold randomElement
    rw [if_neg (by rw [hlen]; norm_num), hfl]
    exact List.get?_eq_get hidx
  · intro env sid iv hue o hbind
    have hres : resolveShape "svg-path" env.shapeU = some "svg-path" := by
      unfold resolveShape
      rw [if_pos (by decide)]
    unfold Firework.explodeFragments
    rw [hres]
    unfold shapeDispatch
    rw [if_neg (by simp), if_neg (by simp), if_neg (by simp), if_neg (by simp),
      if_neg (by simp), if_neg (by simp), if_neg (by simp), if_neg (by simp),
      if_neg (by simp), if_neg (by simp), if_pos rfl, hbind]

/-- C5 witness: at the draw `u = 0` the resolved random shape is the
  first list element, a member of the fixed list; and a missing
  `svg-path` element produces the `normal` fragments. -/
theorem shape_resolution_policy_witness :
    (∃ s ∈ randomShapeChoices, resolveShape "random" 0 = some s) ∧
    Firework.explodeFragments trivEnv "svg-path" (some "missing")
        (Vector.mk 0 0) 30 (Vector.mk 5 5)
      = explodeAsNormal (Vector.mk 5 5) (Vector.mk 0 0) 30 trivEnv.fragU := by
  constructor
  · exact shape_resolution_policy.2.2.1 0 (le_refl 0) (by norm_num)
  · exact shape_resolution_policy.2.2.2 trivEnv (some "missing") (Vector.mk 0 0)
      30 (Vector.mk 5 5) rfl

/-- C9: a firework whose initial vertical velocity `v.y` satisfies
  `v.y + gravity.y >= 0` explodes on its very first box step (gravity
  applied, then stepped), and every fragment starts exactly one
  integration step from the launch origin, at `origin + v + gravity`. -/
theorem first_step_explosion (o v : Vector) (sh : String) (hue : ℝ)
    (sid : Option String) (env : Env) (hv : 0 ≤ v.y + GRAVITY.y) :
    (((Firework.init o v sh hue none sid).applyForce GRAVITY).step env).exploded
      = true ∧
    ∀ p ∈ (((Firework.init o v sh hue none sid).applyForce GRAVITY).step env).particles,
      p.pos = o.plus (v.plus GRAVITY) := by
  have hzp : (Vector.mk (0 : ℝ) 0).plus GRAVITY = GRAVITY := by
    unfold Vector.plus
    rw [zero_add, zero_add]
  have hf : ((Firework.init o v sh hue none sid).applyForce GRAVITY).exploded
      = false := rfl
  have hp : ((Firework.init o v sh hue none sid).applyForce GRAVITY).particles
      = [(Particle.init o v hue 0).applyForce GRAVITY] := rfl
  have hc : explodeCond ((Firework.init o v sh hue none sid).applyForce
      GRAVITY).target ((Particle.init o v hue 0).applyForce GRAVITY).step := by
    apply Or.inl
    show (0 : ℝ) ≤ v.y + ((Vector.mk (0 : ℝ) 0).plus GRAVITY).y
    rw [hzp]
    exact hv
  rw [step_ascend_explode env hf hp hc]
  refine ⟨rfl, ?_⟩
  intro p hmem
  have hfr := explodeFragments_fresh hmem
  rw [hfr.1]
  show (o.plus (v.plus ((Vector.mk (0 : ℝ) 0).plus GRAVITY))) = o.plus (v.plus GRAVITY)
  rw [hzp]

/-- C9 witness: with origin `(100, 400)` and initial velocity `(0, 0)`
  (the velocity `startNewFirework` computes when the target height
  equals the box height), the firework explodes on the first step and
  all fragments sit at `origin + v + gravity`. -/
theorem first_step_explosion_witness :
    (((Firework.init (Vector.mk 100 400) (Vector.mk 0 0) "normal" 30 none
        none).applyForce GRAVITY).step trivEnv).exploded = true ∧
    ∀ p ∈ (((Firework.init (Vector.mk 100 400) (Vector.mk 0 0) "normal" 30 none
        none).applyForce GRAVITY).step trivEnv).particles,
      p.pos = (Vector.mk 100 400).plus ((Vector.mk 0 0).plus GRAVITY) :=
  first_step_explosion (Vector.mk 100 400) (Vector.mk 0 0) "normal" 30 none
    trivEnv (by norm_num [GRAVITY])

/-! ## Running-maximum lemmas for the SVG sampler -/

theorem foldl_runmax_init_le (l : List Vector) : ∀ init : ℝ,
    init ≤ l.foldl (fun m v => if m < v.magnitude then v.magnitude else m) init := by
  induction l with
  | nil =>
    intro init
    exact le_refl _
  | cons w l ih =>
    intro init
    rw [List.foldl_cons]
    refine le_trans ?_ (ih _)
    by_cases hw : init < w.magnitude
    · rw [if_pos hw]
      exact le_of_lt hw
    · rw [if_neg hw]

theorem foldl_runmax_mem_le (l : List Vector) : ∀ init : ℝ, ∀ v ∈ l,
    v.magnitude ≤ l.foldl (fun m v => if m < v.magnitude then v.magnitude else m)
      init := by
  induction l with
  | nil =>
    intro init v hv
    cases hv
  | cons w l ih =>
    intro init v hv
    rw [List.foldl_cons]
    rcases List.mem_cons.mp hv with rfl | hv2
    · refine le_trans ?_ (foldl_runmax_init_le l _)
      by_cases hw : init < v.magnitude
      · rw [if_pos hw]
      · rw [if_neg hw]
        exact le_of_not_lt hw
    · exact ih _ v hv2

theorem foldl_runmax_attained (l : List Vector) : ∀ init : ℝ,
    l.foldl (fun m v => if m < v.magnitude then v.magnitude else m) init = init ∨
    ∃ v ∈ l,
      l.foldl (fun m v => if m < v.magnitude then v.magnitude else m) init
        = v.magnitude := by
  induction l with
  | nil =>
    intro init
    exact Or.inl rfl
  | cons w l ih =>
    intro init
    rw [List.foldl_cons]
    rcases ih (if init < w.magnitude then w.magnitude else init) with h | ⟨v, hv, hfold⟩
    · by_cases hw : init < w.magnitude
      · right
        refine ⟨w, List.mem_cons_self w l, ?_⟩
        rw [h, if_pos hw]
      · left
        rw [h, if_neg hw]
    · right
      exact ⟨v, List.mem_cons_of_mem w hv, hfold⟩

/-- C10: in `explodeAsSvgPath`, provided at least one of the 180 sampled
  path points has nonzero magnitude, every fragment's initial velocity
  magnitude is at most 1 and some fragment's magnitude is exactly 1; and
  the unguarded division's divisor is zero exactly in the excluded case:
  if every sampled point is the origin, the running maximum is 0. -/
theorem svg_sampling_normalization (origin : Vector) (hue : ℝ) (pa : SvgPath) :
    ((∃ v ∈ svgSampleVectors pa, v.magnitude ≠ 0) →
      (∀ p ∈ explodeAsSvgPath origin hue pa, p.vel.magnitude ≤ 1) ∧
      (∃ p ∈ explodeAsSvgPath origin hue pa, p.vel.magnitude = 1))
    ∧ ((∀ v ∈ svgSampleVectors pa, v.magnitude = 0) → svgMaxMag pa = 0) := by
  constructor
  · rintro ⟨v0, hv0, hmag⟩
    have hle0 : v0.magnitude ≤ svgMaxMag pa := by
      unfold svgMaxMag
      exact foldl_runmax_mem_le (svgSampleVectors pa) 0 v0 hv0
    have hpos : 0 < svgMaxMag pa :=
      lt_of_lt_of_le (magnitude_pos_of_ne_zero hmag) hle0
    constructor
    · intro p hp
      rcases List.mem_map.mp hp with ⟨v, hv, rfl⟩
      show (v.divide (svgMaxMag pa)).magnitude ≤ 1
      rw [magnitude_divide v hpos, div_le_one hpos]
      unfold svgMaxMag
      exact foldl_runmax_mem_le (svgSampleVectors pa) 0 v hv
    · rcases foldl_runmax_attained (svgSampleVectors pa) 0 with h0 | ⟨v, hv, hfold⟩
      · exfalso
        unfold svgMaxMag at hpos
        rw [h0] at hpos
        exact lt_irrefl 0 hpos
      · refine ⟨Particle.init origin (v.divide (svgMaxMag pa)) hue 1, ?_, ?_⟩
        · exact List.mem_map_of_mem _ hv
        · show (v.divide (svgMaxMag pa)).magnitude = 1
          rw [magnitude_divide v hpos]
          have hvm : svgMaxMag pa = v.magnitude := hfold
          rw [← hvm]
          exact div_self (ne_of_gt hpos)
  · intro hall
    rcases foldl_runmax_attained (svgSampleVectors pa) 0 with h0 | ⟨v, hv, hfold⟩
    · exact h0
    · show (svgSampleVectors pa).foldl
        (fun m v => if m < v.magnitude then v.magnitude else m) 0 = 0
      rw [hfold]
      exact hall v hv

/-- C10 witness: on a constant path sampling to `(1, 0)` everywhere, the
  precondition holds, all fragment magnitudes are at most 1 and one
  equals 1; on the all-origin path, the divisor is 0. -/
theorem svg_sampling_normalization_witness :
    ((∀ p ∈ explodeAsSvgPath (Vector.mk 0 0) 30
        (SvgPath.mk 180 (fun _ => (1, 0))), p.vel.magnitude ≤ 1) ∧
     (∃ p ∈ explodeAsSvgPath (Vector.mk 0 0) 30
        (SvgPath.mk 180 (fun _ => (1, 0))), p.vel.magnitude = 1)) ∧
    svgMaxMag (SvgPath.mk 0 (fun _ => (0, 0))) = 0 := by
  have hone : (Vector.mk (1 : ℝ) 0).magnitude = 1 := by
    show Real.sqrt ((1 : ℝ) * 1 + 0 * 0) = 1
    rw [show ((1 : ℝ) * 1 + 0 * 0) = 1 by norm_num]
    exact Real.sqrt_one
  constructor
  · apply (svg_sampling_normalization (Vector.mk 0 0) 30
      (SvgPath.mk 180 (fun _ => (1, 0)))).1
    refine ⟨Vector.mk 1 0, ?_, ?_⟩
    · unfold svgSampleVectors
      have h0 : (0 : ℕ) ∈ List.range 180 := List.mem_range.mpr (by norm_num)
      exact List.mem_map.mpr ⟨0, h0, rfl⟩
    · rw [hone]
      norm_num
  · apply (svg_sampling_normalization (Vector.mk 0 0) 30
      (SvgPath.mk 0 (fun _ => (0, 0)))).2
    intro v hv
    rcases List.mem_map.mp hv with ⟨i, _, rfl⟩
    show Real.sqrt ((0 : ℝ) * 0 + 0 * 0) = 0
    rw [show ((0 : ℝ) * 0 + 0 * 0) = 0 by norm_num]
    exact Real.sqrt_zero

/-- The explosion trigger as an existential on the optional target. -/
theorem explodeCond_iff (tg : Option Vector) (p : Particle) :
    explodeCond tg p ↔
      (0 ≤ p.vel.y ∨ ∃ t, tg = some t ∧ jsDistance t p.pos < 10) := by
  unfold explodeCond
  cases tg with
  | none => simp
  | some t => simp

/-- C1: from construction, through any interleaving of `applyForce` and
  `step` operations: while unexploded a firework holds exactly one
  particle; the next step explodes it exactly when the stepped ascending
  particle's vertical velocity is at or above 0 or a supplied target is
  within 10 units; on that transition the particle list becomes exactly
  the generated fragment list, which does not contain the ascending
  particle (its decay is 0, every fragment's is 1); and once exploded a
  firework stays exploded forever, so the transition happens at most
  once over its lifetime. -/
theorem firework_lifecycle (o iv : Vector) (sh : String) (hue : ℝ)
    (tg : Option Vector) (sid : Option String) (ops : List FwOp) (env : Env)
    (f : Firework) (hf : f = (Firework.init o iv sh hue tg sid).run ops) :
    (f.exploded = false →
      ∃ p0, f.particles = [p0] ∧
        ((f.step env).exploded = true ↔
          (0 ≤ p0.step.vel.y ∨
            ∃ t, f.target = some t ∧ jsDistance t p0.step.pos < 10)) ∧
        ((f.step env).exploded = true →
          (f.step env).particles = Firework.explodeFragments env f.shape
            f.svgPathId f.initialVelocity f.hue p0.step.pos ∧
          p0.step ∉ (f.step env).particles))
    ∧ (f.exploded = true → ∀ ops2 : List FwOp, (f.run ops2).exploded = true) := by
  constructor
  · intro hexp
    have hinv := fwInv_run (fwInv_init o iv sh hue tg sid) ops
    rw [← hf] at hinv
    rcases hinv hexp with ⟨p0, hp, hd⟩
    have hiff : (f.step env).exploded = true ↔ explodeCond f.target p0.step := by
      by_cases hc : explodeCond f.target p0.step
      · rw [step_ascend_explode env hexp hp hc]
        simp only [hc, iff_true]
      · rw [step_ascend_continue env hexp hp hc]
        show f.exploded = true ↔ _
        rw [hexp]
        simp [hc]
    refine ⟨p0, hp, hiff.trans (explodeCond_iff f.target p0.step), ?_⟩
    intro hstep
    have hc : explodeCond f.target p0.step := hiff.mp hstep
    rw [step_ascend_explode env hexp hp hc]
    refine ⟨rfl, ?_⟩
    intro hmem
    have hfr := explodeFragments_fresh hmem
    have hd2 : p0.step.decay = 0 := hd
    rw [hfr.2.1] at hd2
    norm_num at hd2
  · intro hexp ops2
    exact exploded_run hexp ops2

/-- C1 witness: a freshly ignited firework (still ascending, velocity
  `(0, -7)`) has exactly one particle and the stated transition
  characterization; and a firework that exploded on its first step
  (initial velocity `(0, 1)`) stays exploded through a further
  operation. -/
theorem firework_lifecycle_witness :
    (∃ p0,
      (Firework.init (Vector.mk 100 400) (Vector.mk 0 (-7)) "normal" 30 none
        none).particles = [p0] ∧
      (((Firework.init (Vector.mk 100 400) (Vector.mk 0 (-7)) "normal" 30 none
          none).step trivEnv).exploded = true ↔
        (0 ≤ p0.step.vel.y ∨
          ∃ t, (Firework.init (Vector.mk 100 400) (Vector.mk 0 (-7)) "normal" 30
            none none).target = some t ∧ jsDistance t p0.step.pos < 10)) ∧
      (((Firework.init (Vector.mk 100 400) (Vector.mk 0 (-7)) "normal" 30 none
          none).step trivEnv).exploded = true →
        ((Firework.init (Vector.mk 100 400) (Vector.mk 0 (-7)) "normal" 30 none
            none).step trivEnv).particles
          = Firework.explodeFragments trivEnv
              (Firework.init (Vector.mk 100 400) (Vector.mk 0 (-7)) "normal" 30
                none none).shape
              (Firework.init (Vector.mk 100 400) (Vector.mk 0 (-7)) "normal" 30
                none none).svgPathId
              (Firework.init (Vector.mk 100 400) (Vector.mk 0 (-7)) "normal" 30
                none none).initialVelocity
              (Firework.init (Vector.mk 100 400) (Vector.mk 0 (-7)) "normal" 30
                none none).hue p0.step.pos ∧
        p0.step ∉ ((Firework.init (Vector.mk 100 400) (Vector.mk 0 (-7)) "normal"
          30 none none).step trivEnv).particles))
    ∧ (((Firework.init (Vector.mk 100 400) (Vector.mk 0 1) "normal" 30 none
        none).run [FwOp.step trivEnv]).run [FwOp.applyForce GRAVITY]).exploded
        = true := by
  constructor
  · exact (firework_lifecycle (Vector.mk 100 400) (Vector.mk 0 (-7)) "normal" 30
      none none [] trivEnv _ rfl).1 rfl
  · have hc : explodeCond (Firework.init (Vector.mk 100 400) (Vector.mk 0 1)
        "normal" 30 none none).target
        (Particle.init (Vector.mk 100 400) (Vector.mk 0 1) 30 0).step := by
      apply Or.inl
      show (0 : ℝ) ≤ 1 + 0
      norm_num
    have hexp : ((Firework.init (Vector.mk 100 400) (Vector.mk 0 1) "normal" 30
        none none).run [FwOp.step trivEnv]).exploded = true := by
      show ((Firework.init (Vector.mk 100 400) (Vector.mk 0 1) "normal" 30 none
        none).step trivEnv).exploded = true
      rw [step_ascend_explode trivEnv rfl rfl hc]
    exact (firework_lifecycle (Vector.mk 100 400) (Vector.mk 0 1) "normal" 30
      none none [FwOp.step trivEnv] trivEnv _ rfl).2 hexp [FwOp.applyForce GRAVITY]

end Fireworks
